import Mathlib

/-!
Verification development for pithermon (src/app/pithermon.py), a Raspberry Pi
temperature and throttling monitor.  Python values are shallowly embedded:
floats as exact rationals, strings as lists of characters (or Lean strings
where only equality matters), the 32-bit firmware throttle word as a natural
number combined with the very same bit masks the source uses.
-/

set_option maxHeartbeats 1000000

namespace Pithermon

/-! ## Throttle word decoding (Data.throttled_string, pithermon.py lines 223-233) -/

/-- First cell of Data.throttled_string: the source computes
u = self.throttled & 0x00010001 and renders the cell as
U if u & 0x01, else u if u > 0x00, else a space. -/
def throttleCellU (throttled : Nat) : Char :=
  let u := throttled &&& 0x00010001
  if u &&& 0x01 ≠ 0 then 'U' else if u > 0x00 then 'u' else ' '

/-- Second cell: a = self.throttled & 0x00020002, rendered as
A if a & 0x02, else a if a > 0x00, else a space. -/
def throttleCellA (throttled : Nat) : Char :=
  let a := throttled &&& 0x00020002
  if a &&& 0x02 ≠ 0 then 'A' else if a > 0x00 then 'a' else ' '

/-- Third cell: t = self.throttled & 0x00040004, rendered as
T if t & 0x04, else t if t > 0x00, else a space. -/
def throttleCellT (throttled : Nat) : Char :=
  let t := throttled &&& 0x00040004
  if t &&& 0x04 ≠ 0 then 'T' else if t > 0x00 then 't' else ' '

/-- Data.throttled_string: the format string produces a bracketed
three-cell tag for stdout. -/
def throttled_string (throttled : Nat) : List Char :=
  ['['] ++ [throttleCellU throttled, throttleCellA throttled, throttleCellT throttled] ++ [']']

/-! ### Bitwise helper lemmas -/

lemma and_eq_zero_iff_testBit (w m : Nat) :
    w &&& m = 0 ↔ ∀ i, ¬(w.testBit i = true ∧ m.testBit i = true) := by
  constructor
  · intro h i hi
    have ht := Nat.testBit_land w m i
    rw [h, Nat.zero_testBit, hi.1, hi.2] at ht
    simp at ht
  · intro h
    apply Nat.zero_of_testBit_eq_false
    intro i
    rw [Nat.testBit_land]
    by_cases hw : w.testBit i = true
    · by_cases hm : m.testBit i = true
      · exact absurd ⟨hw, hm⟩ (h i)
      · simp [Bool.not_eq_true] at hm
        simp [hm]
    · simp [Bool.not_eq_true] at hw
      simp [hw]

lemma and_ne_zero_iff (w m : Nat) :
    w &&& m ≠ 0 ↔ ∃ i, w.testBit i = true ∧ m.testBit i = true := by
  rw [Ne, and_eq_zero_iff_testBit]
  push_neg
  simp

lemma and_pow_two_ne_zero (w i : Nat) : w &&& 2 ^ i ≠ 0 ↔ w.testBit i = true := by
  rw [Nat.and_two_pow]
  cases h : w.testBit i
  · simp
  · have h2 : 0 < 2 ^ i := pow_pos (by norm_num) i
    constructor
    · intro _
      rfl
    · intro _
      show (1 : ℕ) * 2 ^ i ≠ 0
      omega

lemma testBit_mask_65537 (i : Nat) :
    (0x00010001 : Nat).testBit i = true ↔ i = 0 ∨ i = 16 := by
  constructor
  · intro h
    by_cases hi : i < 17
    · interval_cases i <;> revert h <;> decide
    · exfalso
      have hle : (2 : ℕ) ^ 17 ≤ 2 ^ i := Nat.pow_le_pow_right (by norm_num) (by omega)
      have hlt : (0x00010001 : Nat) < 2 ^ i := lt_of_lt_of_le (by norm_num) hle
      rw [Nat.testBit_eq_false_of_lt hlt] at h
      exact Bool.false_ne_true h
  · rintro (rfl | rfl) <;> decide

lemma testBit_mask_131074 (i : Nat) :
    (0x00020002 : Nat).testBit i = true ↔ i = 1 ∨ i = 17 := by
  constructor
  · intro h
    by_cases hi : i < 18
    · interval_cases i <;> revert h <;> decide
    · exfalso
      have hle : (2 : ℕ) ^ 18 ≤ 2 ^ i := Nat.pow_le_pow_right (by norm_num) (by omega)
      have hlt : (0x00020002 : Nat) < 2 ^ i := lt_of_lt_of_le (by norm_num) hle
      rw [Nat.testBit_eq_false_of_lt hlt] at h
      exact Bool.false_ne_true h
  · rintro (rfl | rfl) <;> decide

lemma testBit_mask_262148 (i : Nat) :
    (0x00040004 : Nat).testBit i = true ↔ i = 2 ∨ i = 18 := by
  constructor
  · intro h
    by_cases hi : i < 19
    · interval_cases i <;> revert h <;> decide
    · exfalso
      have hle : (2 : ℕ) ^ 19 ≤ 2 ^ i := Nat.pow_le_pow_right (by norm_num) (by omega)
      have hlt : (0x00040004 : Nat) < 2 ^ i := lt_of_lt_of_le (by norm_num) hle
      rw [Nat.testBit_eq_false_of_lt hlt] at h
      exact Bool.false_ne_true h
  · rintro (rfl | rfl) <;> decide

lemma testBit_mask_7 (i : Nat) :
    (0x07 : Nat).testBit i = true ↔ i = 0 ∨ i = 1 ∨ i = 2 := by
  constructor
  · intro h
    by_cases hi : i < 3
    · interval_cases i <;> revert h <;> decide
    · exfalso
      have hle : (2 : ℕ) ^ 3 ≤ 2 ^ i := Nat.pow_le_pow_right (by norm_num) (by omega)
      have hlt : (0x07 : Nat) < 2 ^ i := lt_of_lt_of_le (by norm_num) hle
      rw [Nat.testBit_eq_false_of_lt hlt] at h
      exact Bool.false_ne_true h
  · rintro (rfl | rfl | rfl) <;> decide

lemma and_65537_ne_zero (w : Nat) :
    w &&& 0x00010001 ≠ 0 ↔ (w.testBit 0 = true ∨ w.testBit 16 = true) := by
  rw [and_ne_zero_iff]
  constructor
  · rintro ⟨i, hw, hm⟩
    rcases (testBit_mask_65537 i).mp hm with rfl | rfl
    · exact Or.inl hw
    · exact Or.inr hw
  · rintro (h | h)
    exacts [⟨0, h, by decide⟩, ⟨16, h, by decide⟩]

lemma and_131074_ne_zero (w : Nat) :
    w &&& 0x00020002 ≠ 0 ↔ (w.testBit 1 = true ∨ w.testBit 17 = true) := by
  rw [and_ne_zero_iff]
  constructor
  · rintro ⟨i, hw, hm⟩
    rcases (testBit_mask_131074 i).mp hm with rfl | rfl
    · exact Or.inl hw
    · exact Or.inr hw
  · rintro (h | h)
    exacts [⟨1, h, by decide⟩, ⟨17, h, by decide⟩]

lemma and_262148_ne_zero (w : Nat) :
    w &&& 0x00040004 ≠ 0 ↔ (w.testBit 2 = true ∨ w.testBit 18 = true) := by
  rw [and_ne_zero_iff]
  constructor
  · rintro ⟨i, hw, hm⟩
    rcases (testBit_mask_262148 i).mp hm with rfl | rfl
    · exact Or.inl hw
    · exact Or.inr hw
  · rintro (h | h)
    exacts [⟨2, h, by decide⟩, ⟨18, h, by decide⟩]

lemma and_7_ne_zero (w : Nat) :
    w &&& 0x07 ≠ 0 ↔ (w.testBit 0 = true ∨ w.testBit 1 = true ∨ w.testBit 2 = true) := by
  rw [and_ne_zero_iff]
  constructor
  · rintro ⟨i, hw, hm⟩
    rcases (testBit_mask_7 i).mp hm with rfl | rfl | rfl
    · exact Or.inl hw
    · exact Or.inr (Or.inl hw)
    · exact Or.inr (Or.inr hw)
  · rintro (h | h | h)
    exacts [⟨0, h, by decide⟩, ⟨1, h, by decide⟩, ⟨2, h, by decide⟩]

lemma throttleCellU_eq (w : Nat) :
    throttleCellU w =
      if w.testBit 0 = true then 'U' else if w.testBit 16 = true then 'u' else ' ' := by
  simp only [throttleCellU]
  by_cases h0 : w.testBit 0 = true
  · have hnow : (w &&& 0x00010001) &&& 0x01 ≠ 0 := by
      rw [Nat.land_assoc, show (0x00010001 : Nat) &&& 0x01 = 0x01 from by decide,
        show (0x01 : Nat) = 2 ^ 0 from by norm_num, and_pow_two_ne_zero]
      exact h0
    rw [if_pos hnow, if_pos h0]
  · have hnow : (w &&& 0x00010001) &&& 0x01 = 0 := by
      rw [Nat.land_assoc, show (0x00010001 : Nat) &&& 0x01 = 0x01 from by decide,
        show (0x01 : Nat) = 2 ^ 0 from by norm_num]
      by_contra hne
      exact h0 ((and_pow_two_ne_zero w 0).mp hne)
    rw [if_neg (fun hne => hne hnow), if_neg h0]
    by_cases h16 : w.testBit 16 = true
    · have hever : w &&& 0x00010001 > 0x00 := by
        have := (and_65537_ne_zero w).mpr (Or.inr h16)
        omega
      rw [if_pos hever, if_pos h16]
    · have hever : w &&& 0x00010001 = 0 := by
        by_contra hne
        rcases (and_65537_ne_zero w).mp hne with h | h
        · exact h0 h
        · exact h16 h
      rw [if_neg (by omega : ¬w &&& 0x00010001 > 0x00), if_neg h16]

lemma throttleCellA_eq (w : Nat) :
    throttleCellA w =
      if w.testBit 1 = true then 'A' else if w.testBit 17 = true then 'a' else ' ' := by
  simp only [throttleCellA]
  by_cases h1 : w.testBit 1 = true
  · have hnow : (w &&& 0x00020002) &&& 0x02 ≠ 0 := by
      rw [Nat.land_assoc, show (0x00020002 : Nat) &&& 0x02 = 0x02 from by decide,
        show (0x02 : Nat) = 2 ^ 1 from by norm_num, and_pow_two_ne_zero]
      exact h1
    rw [if_pos hnow, if_pos h1]
  · have hnow : (w &&& 0x00020002) &&& 0x02 = 0 := by
      rw [Nat.land_assoc, show (0x00020002 : Nat) &&& 0x02 = 0x02 from by decide,
        show (0x02 : Nat) = 2 ^ 1 from by norm_num]
      by_contra hne
      exact h1 ((and_pow_two_ne_zero w 1).mp hne)
    rw [if_neg (fun hne => hne hnow), if_neg h1]
    by_cases h17 : w.testBit 17 = true
    · have hever : w &&& 0x00020002 > 0x00 := by
        have := (and_131074_ne_zero w).mpr (Or.inr h17)
        omega
      rw [if_pos hever, if_pos h17]
    · have hever : w &&& 0x00020002 = 0 := by
        by_contra hne
        rcases (and_131074_ne_zero w).mp hne with h | h
        · exact h1 h
        · exact h17 h
      rw [if_neg (by omega : ¬w &&& 0x00020002 > 0x00), if_neg h17]

lemma throttleCellT_eq (w : Nat) :
    throttleCellT w =
      if w.testBit 2 = true then 'T' else if w.testBit 18 = true then 't' else ' ' := by
  simp only [throttleCellT]
  by_cases h2 : w.testBit 2 = true
  · have hnow : (w &&& 0x00040004) &&& 0x04 ≠ 0 := by
      rw [Nat.land_assoc, show (0x00040004 : Nat) &&& 0x04 = 0x04 from by decide,
        show (0x04 : Nat) = 2 ^ 2 from by norm_num, and_pow_two_ne_zero]
      exact h2
    rw [if_pos hnow, if_pos h2]
  · have hnow : (w &&& 0x00040004) &&& 0x04 = 0 := by
      rw [Nat.land_assoc, show (0x00040004 : Nat) &&& 0x04 = 0x04 from by decide,
        show (0x04 : Nat) = 2 ^ 2 from by norm_num]
      by_contra hne
      exact h2 ((and_pow_two_ne_zero w 2).mp hne)
    rw [if_neg (fun hne => hne hnow), if_neg h2]
    by_cases h18 : w.testBit 18 = true
    · have hever : w &&& 0x00040004 > 0x00 := by
        have := (and_262148_ne_zero w).mpr (Or.inr h18)
        omega
      rw [if_pos hever, if_pos h18]
    · have hever : w &&& 0x00040004 = 0 := by
        by_contra hne
        rcases (and_262148_ne_zero w).mp hne with h | h
        · exact h2 h
        · exact h18 h
      rw [if_neg (by omega : ¬w &&& 0x00040004 > 0x00), if_neg h18]

/-- C1: for every throttle word the three display cells are independent
tri-state cells over the combined masks 0x00010001, 0x00020002 and 0x00040004
(bits 0 and 16, 1 and 17, 2 and 18): each renders uppercase exactly when its
now bit (0, 1, 2 respectively) is set, lowercase exactly when the combined
mask is nonzero but the now bit is clear, and a blank space otherwise; and the
word 0x70000 decodes to the tag uat while 0x07 decodes to the tag UAT. -/
theorem throttle_tag_tristate :
    (∀ w : Nat,
      (w &&& 0x00010001 ≠ 0 ↔ (w.testBit 0 = true ∨ w.testBit 16 = true)) ∧
      (throttleCellU w = 'U' ↔ w.testBit 0 = true) ∧
      (throttleCellU w = 'u' ↔ (w &&& 0x00010001 ≠ 0 ∧ w.testBit 0 = false)) ∧
      (throttleCellU w = ' ' ↔ w &&& 0x00010001 = 0) ∧
      (w &&& 0x00020002 ≠ 0 ↔ (w.testBit 1 = true ∨ w.testBit 17 = true)) ∧
      (throttleCellA w = 'A' ↔ w.testBit 1 = true) ∧
      (throttleCellA w = 'a' ↔ (w &&& 0x00020002 ≠ 0 ∧ w.testBit 1 = false)) ∧
      (throttleCellA w = ' ' ↔ w &&& 0x00020002 = 0) ∧
      (w &&& 0x00040004 ≠ 0 ↔ (w.testBit 2 = true ∨ w.testBit 18 = true)) ∧
      (throttleCellT w = 'T' ↔ w.testBit 2 = true) ∧
      (throttleCellT w = 't' ↔ (w &&& 0x00040004 ≠ 0 ∧ w.testBit 2 = false)) ∧
      (throttleCellT w = ' ' ↔ w &&& 0x00040004 = 0)) ∧
    throttled_string 0x70000 = ['[', 'u', 'a', 't', ']'] ∧
    throttled_string 0x07 = ['[', 'U', 'A', 'T', ']'] := by
  refine ⟨fun w => ?_, by decide, by decide⟩
  have hU := throttleCellU_eq w
  have hA := throttleCellA_eq w
  have hT := throttleCellT_eq w
  have h65 := and_65537_ne_zero w
  have h13 := and_131074_ne_zero w
  have h26 := and_262148_ne_zero w
  by_cases h0 : w.testBit 0 = true <;> by_cases h16 : w.testBit 16 = true <;>
    by_cases h1 : w.testBit 1 = true <;> by_cases h17 : w.testBit 17 = true <;>
    by_cases h2 : w.testBit 2 = true <;> by_cases h18 : w.testBit 18 = true <;>
    simp_all

/-! ## Locale-aware numeric rendering (Data.__float2str, pithermon.py lines 183-187)

Python floats are embedded as exact rationals and Python strings as lists of
characters.  Python round uses round-half-to-even; str of a float rounded to
one decimal prints the value with exactly one fractional digit. -/

/-- Floor of a rational computed from its reduced fraction, so that it
evaluates by kernel reduction. -/
def ratFloor (q : ℚ) : ℤ := q.num / q.den

lemma ratFloor_eq (q : ℚ) : ratFloor q = ⌊q⌋ := Rat.floor_def.symm

/-- Round half to even at integer precision, the rounding of Python round
applied to an exact rational value. -/
def rhe (q : ℚ) : ℤ :=
  if q - ratFloor q < 1 / 2 then ratFloor q
  else if q - ratFloor q > 1 / 2 then ratFloor q + 1
  else if ratFloor q % 2 = 0 then ratFloor q else ratFloor q + 1

/-- Decimal digit characters of a natural number, models Python str on a
non-negative integer. -/
def natChars (n : Nat) : List Char :=
  if n = 0 then ['0'] else ((Nat.digits 10 n).map Nat.digitChar).reverse

/-- Models str(round(fval, 1)): the rounded value printed with exactly one
fractional digit, with a leading minus sign when negative. -/
def round1chars (fval : ℚ) : List Char :=
  let n : ℤ := rhe (10 * fval)
  (if n < 0 then ['-'] else []) ++
    natChars (n.natAbs / 10) ++ ['.'] ++ [Nat.digitChar (n.natAbs % 10)]

/-- Python str.replace restricted to a single-character search string, which
substitutes every matching character independently. -/
def replaceChar (pat repl : Char) (s : List Char) : List Char :=
  s.map fun c => if c = pat then repl else c

/-- Data.__float2str: the source renders str(round(fval, 1)) and, when the
decimal separator of the dialect differs from the dot, substitutes the dot by
that separator with str.replace. -/
def float2str (decimal_separator : Char) (fval : ℚ) : List Char :=
  if decimal_separator ≠ '.' then replaceChar '.' decimal_separator (round1chars fval)
  else round1chars fval

/-! ## The Data record (class Data, pithermon.py lines 123-233) -/

structure Data where
  time : List Char := []
  cpu_temp : ℚ := 0
  cpu_load : ℚ := 0
  cpu_freq : ℚ := 0
  cpu_volts : ℚ := 0
  gpu_temp : ℚ := 0
  throttled : Nat := 0
  decimal_separator : Char := '.'

/-- Data.__init__: the separator becomes a comma exactly for the finnish
dialect; every other field keeps its class default. -/
def Data.init (dialect : String) : Data :=
  { decimal_separator := if dialect = "finnish" then ',' else '.' }

/-- Data.header (lines 148-182), selected by Config.Logging_Level: the branch
for BASIC, the branch for STANDARD, and the fallback branch for FULL. -/
def header (logging_level : String) : List String :=
  if logging_level = "BASIC" then
    ["Time",
     "CPU Temperature",
     "CPU MHz",
     "ARM Frequency Capped",
     "Throttled"]
  else if logging_level = "STANDARD" then
    ["Time",
     "CPU Temperature",
     "CPU Load",
     "CPU MHz",
     "CPU Volts",
     "Undervoltage",
     "ARM Frequency Capped",
     "Throttled"]
  else
    ["Time",
     "CPU Temperature",
     "CPU Load",
     "CPU MHz",
     "CPU Volts",
     "GPU Temperature",
     "Undervoltage",
     "ARM Frequency Capped",
     "Throttled",
     "Undervoltage has occured",
     "ARM Frequencey Capping has occured",
     "Throttling has occured"]

/-- A field of a log row: Python emits strings for time and numeric fields and
the integers 0 or 1 for the throttle flags. -/
inductive Entry where
  | str (chars : List Char)
  | int (value : Nat)
deriving DecidableEq

/-- Data.row (lines 188-222).  The Python source truth-tests each mask with
self.throttled and emits 1 or 0; the first element reads the module-level
binding data.time, which aliases the same single Data instance, so it is
modelled as the time field of the record. -/
def Data.row (logging_level : String) (d : Data) : List Entry :=
  if logging_level = "BASIC" then
    [.str d.time,
     .str (float2str d.decimal_separator d.cpu_temp),
     .str (float2str d.decimal_separator d.cpu_freq),
     .int (if d.throttled &&& 0x02 ≠ 0 then 1 else 0),
     .int (if d.throttled &&& 0x04 ≠ 0 then 1 else 0)]
  else if logging_level = "STANDARD" then
    [.str d.time,
     .str (float2str d.decimal_separator d.cpu_temp),
     .str (float2str d.decimal_separator d.cpu_load),
     .str (float2str d.decimal_separator d.cpu_freq),
     .str (float2str d.decimal_separator d.cpu_volts),
     .int (if d.throttled &&& 0x01 ≠ 0 then 1 else 0),
     .int (if d.throttled &&& 0x02 ≠ 0 then 1 else 0),
     .int (if d.throttled &&& 0x04 ≠ 0 then 1 else 0)]
  else
    [.str d.time,
     .str (float2str d.decimal_separator d.cpu_temp),
     .str (float2str d.decimal_separator d.cpu_load),
     .str (float2str d.decimal_separator d.cpu_freq),
     .str (float2str d.decimal_separator d.cpu_volts),
     .str (float2str d.decimal_separator d.gpu_temp),
     .int (if d.throttled &&& 0x01 ≠ 0 then 1 else 0),
     .int (if d.throttled &&& 0x02 ≠ 0 then 1 else 0),
     .int (if d.throttled &&& 0x04 ≠ 0 then 1 else 0),
     .int (if d.throttled &&& 0x10000 ≠ 0 then 1 else 0),
     .int (if d.throttled &&& 0x20000 ≠ 0 then 1 else 0),
     .int (if d.throttled &&& 0x40000 ≠ 0 then 1 else 0)]

/-- C7: the header has exactly 5 fields at BASIC, 8 at STANDARD and 12 at
FULL; every BASIC field name appears under the same name in STANDARD and in
FULL, every STANDARD field name appears in FULL, and the FULL field set is
exactly the STANDARD set plus GPU Temperature and the three has-occured
flags. -/
theorem header_field_sets :
    (header "BASIC").length = 5 ∧
    (header "STANDARD").length = 8 ∧
    (header "FULL").length = 12 ∧
    (∀ f ∈ header "BASIC", f ∈ header "STANDARD") ∧
    (∀ f ∈ header "BASIC", f ∈ header "FULL") ∧
    (∀ f ∈ header "STANDARD", f ∈ header "FULL") ∧
    (∀ f ∈ header "FULL", f ∈ header "STANDARD" ∨
      f ∈ ["GPU Temperature", "Undervoltage has occured",
           "ARM Frequencey Capping has occured", "Throttling has occured"]) ∧
    (∀ f ∈ ["GPU Temperature", "Undervoltage has occured",
            "ARM Frequencey Capping has occured", "Throttling has occured"],
      f ∈ header "FULL" ∧ f ∉ header "STANDARD") := by
  decide

/-- Witness for the quantified parts of the header theorem at the concrete
field name Time. -/
theorem header_field_sets_witness :
    "Time" ∈ header "BASIC" ∧ "Time" ∈ header "STANDARD" := by
  refine ⟨by decide, header_field_sets.2.2.2.1 "Time" (by decide)⟩

lemma digitChar_ne_dot {d : Nat} (hd : d < 10) : Nat.digitChar d ≠ '.' := by
  interval_cases d <;> decide

lemma natChars_no_dot (n : Nat) : '.' ∉ natChars n := by
  unfold natChars
  split
  · decide
  · intro hmem
    rw [List.mem_reverse] at hmem
    obtain ⟨d, hd, hEq⟩ := List.mem_map.mp hmem
    exact digitChar_ne_dot (Nat.digits_lt_base (by norm_num) hd) hEq

lemma replaceChar_append (pat repl : Char) (l1 l2 : List Char) :
    replaceChar pat repl (l1 ++ l2) = replaceChar pat repl l1 ++ replaceChar pat repl l2 :=
  List.map_append _ _ _

lemma replaceChar_of_not_mem {pat : Char} (repl : Char) {l : List Char} (h : pat ∉ l) :
    replaceChar pat repl l = l := by
  induction l with
  | nil => rfl
  | cons c cs ih =>
    rw [List.mem_cons] at h
    push_neg at h
    show (if c = pat then repl else c) :: replaceChar pat repl cs = c :: cs
    rw [if_neg (fun hc => h.1 hc.symm), ih h.2]

lemma rhe_bound (q : ℚ) : |q - rhe q| ≤ 1 / 2 := by
  have hfl : ((ratFloor q : ℤ) : ℚ) ≤ q := by
    rw [ratFloor_eq]
    exact Int.floor_le q
  have hfu : q < ((ratFloor q : ℤ) : ℚ) + 1 := by
    rw [ratFloor_eq]
    exact Int.lt_floor_add_one q
  unfold rhe
  split_ifs with h1 h2 h3 <;> rw [abs_le] <;> push_cast <;> push_cast at h1 <;>
    constructor <;> linarith

lemma round1chars_shape (v : ℚ) :
    round1chars v =
      (if rhe (10 * v) < 0 then ['-'] else []) ++
        natChars ((rhe (10 * v)).natAbs / 10) ++ '.' ::
          [Nat.digitChar ((rhe (10 * v)).natAbs % 10)] := by
  simp only [round1chars]
  simp [List.append_assoc]

/-- C8: for every value, numeric rendering in a log row rounds the value to
one decimal place (the rendered tenths integer n satisfies that 10 times the
value differs from n by at most one half, with a leading minus sign exactly
when n is negative) and then substitutes the decimal point with the
configured separator character; Data.init configures a comma exactly for the
finnish dialect and a dot otherwise; in particular 23.04 renders as 23,0
under the comma separator and as 23.0 under the dot separator. -/
theorem float2str_rounds_then_substitutes :
    (∀ (sep : Char) (v : ℚ), ∃ n : ℤ,
      float2str sep v =
        (if n < 0 then ['-'] else []) ++
          natChars (n.natAbs / 10) ++ sep :: [Nat.digitChar (n.natAbs % 10)] ∧
      |10 * v - (n : ℚ)| ≤ 1 / 2) ∧
    (Data.init "finnish").decimal_separator = ',' ∧
    (Data.init "excel").decimal_separator = '.' ∧
    float2str ',' (2304 / 100) = ['2', '3', ',', '0'] ∧
    float2str '.' (2304 / 100) = ['2', '3', '.', '0'] := by
  have harg : (10 : ℚ) * (2304 / 100) = 1152 / 5 := by norm_num
  have hfl : ratFloor (1152 / 5) = 230 := by
    rw [ratFloor_eq, Int.floor_eq_iff]
    constructor <;> norm_num
  have hrhe : rhe (10 * (2304 / 100)) = 230 := by
    rw [harg]
    unfold rhe
    rw [hfl]
    rw [if_pos (by push_cast; norm_num : (1152 / 5 : ℚ) - ((230 : ℤ) : ℚ) < 1 / 2)]
  have key : round1chars (2304 / 100) = ['2', '3', '.', '0'] := by
    rw [round1chars_shape, hrhe]
    norm_num
    simp [natChars, Nat.digitChar]
  refine ⟨?_, rfl, rfl, ?_, ?_⟩
  · intro sep v
    refine ⟨rhe (10 * v), ?_, rhe_bound (10 * v)⟩
    unfold float2str
    by_cases hsep : sep = '.'
    · subst hsep
      rw [if_neg (by simp), round1chars_shape]
    · have hd : Nat.digitChar ((rhe (10 * v)).natAbs % 10) ≠ '.' :=
        digitChar_ne_dot (Nat.mod_lt _ (by norm_num))
      have hsign : '.' ∉ (if rhe (10 * v) < 0 then ['-'] else ([] : List Char)) := by
        split_ifs <;> decide
      rw [if_pos hsep, round1chars_shape,
        show ('.' :: [Nat.digitChar ((rhe (10 * v)).natAbs % 10)]) =
          ['.'] ++ [Nat.digitChar ((rhe (10 * v)).natAbs % 10)] from rfl,
        replaceChar_append, replaceChar_append, replaceChar_append,
        replaceChar_of_not_mem _ hsign,
        replaceChar_of_not_mem _ (natChars_no_dot _),
        replaceChar_of_not_mem _
          (fun h => hd (List.mem_singleton.mp h).symm)]
      simp [replaceChar]
  · unfold float2str
    rw [if_pos (by decide), key]
    simp [replaceChar]
  · unfold float2str
    rw [if_neg (by simp), key]

lemma indicator_eq (w m k : Nat) (hm : m = 2 ^ k) :
    (if w &&& m ≠ 0 then (1 : Nat) else 0) = (if w.testBit k = true then 1 else 0) := by
  subst hm
  by_cases h : w.testBit k = true
  · rw [if_pos ((and_pow_two_ne_zero w k).mpr h), if_pos h]
  · rw [if_neg (fun hne => h ((and_pow_two_ne_zero w k).mp hne)), if_neg h]

/-- C5 amended: the FULL log row exposes exactly six decoded booleans of the
throttle word, the now bits 0, 1 and 2 and the ever bits 16, 17 and 18; the
soft limit bits 3 and 19 are tested by no output of the program. -/
theorem row_full_exposes_six_flags (d : Data) :
    d.row "FULL" =
      [.str d.time,
       .str (float2str d.decimal_separator d.cpu_temp),
       .str (float2str d.decimal_separator d.cpu_load),
       .str (float2str d.decimal_separator d.cpu_freq),
       .str (float2str d.decimal_separator d.cpu_volts),
       .str (float2str d.decimal_separator d.gpu_temp),
       .int (if d.throttled.testBit 0 = true then 1 else 0),
       .int (if d.throttled.testBit 1 = true then 1 else 0),
       .int (if d.throttled.testBit 2 = true then 1 else 0),
       .int (if d.throttled.testBit 16 = true then 1 else 0),
       .int (if d.throttled.testBit 17 = true then 1 else 0),
       .int (if d.throttled.testBit 18 = true then 1 else 0)] := by
  unfold Data.row
  rw [if_neg (by decide : ¬("FULL" : String) = "BASIC"),
    if_neg (by decide : ¬("FULL" : String) = "STANDARD"),
    indicator_eq d.throttled 0x01 0 (by norm_num),
    indicator_eq d.throttled 0x02 1 (by norm_num),
    indicator_eq d.throttled 0x04 2 (by norm_num),
    indicator_eq d.throttled 0x10000 16 (by norm_num),
    indicator_eq d.throttled 0x20000 17 (by norm_num),
    indicator_eq d.throttled 0x40000 18 (by norm_num)]

/-- C5 counterexample: the word 0x80008 sets exactly the soft limit bits 3
and 19 and nothing else, yet every log row and the display tag coincide with
those of the zero word, so the decoder does not expose soft limit booleans. -/
theorem soft_limit_bits_not_exposed :
    ({ throttled := 0x80008 } : Data).row "BASIC" =
      ({ throttled := 0 } : Data).row "BASIC" ∧
    ({ throttled := 0x80008 } : Data).row "STANDARD" =
      ({ throttled := 0 } : Data).row "STANDARD" ∧
    ({ throttled := 0x80008 } : Data).row "FULL" =
      ({ throttled := 0 } : Data).row "FULL" ∧
    throttled_string 0x80008 = throttled_string 0 ∧
    (0x80008 : Nat).testBit 3 = true ∧ (0x80008 : Nat).testBit 19 = true :=
  ⟨rfl, rfl, rfl, rfl, by decide, by decide⟩

/-! ## CPU tick counters (cpu_times, pithermon.py lines 292-312)

The first line of /proc/stat reads cpu, two spaces, then the per-category
tick values separated by single spaces.  Python str.split with an explicit
single-space separator keeps empty fragments, so the double space after the
cpu label contributes an empty fragment before the first value. -/

/-- Python str.split with the single-space separator, on the list-of-chars
view: splits at every space and keeps empty fragments. -/
def splitSp : List Char → List (List Char)
  | [] => [[]]
  | c :: rest =>
    if c = ' ' then [] :: splitSp rest
    else
      match splitSp rest with
      | t :: ts => (c :: t) :: ts
      | [] => [[c]]

/-- Python int applied to a fragment of decimal digits. -/
def parseNat (s : List Char) : Nat :=
  s.foldl (fun acc c => 10 * acc + (c.toNat - 48)) 0

/-- The active_indeces list of cpu_times, written for the numbering of the
comment above it in the source, in which the cpu label is element 0. -/
def active_indeces : List Nat := [1, 2, 3, 7, 8]

/-- The accumulating for loop of cpu_times over enumerate of the fragments:
cputotal takes every value, cpuactive the values whose enumerate index lies
in active_indeces. -/
def cpuTimesLoop : Nat → Nat → Nat → List (List Char) → Nat × Nat
  | cpuactive, cputotal, _, [] => (cpuactive, cputotal)
  | cpuactive, cputotal, index, element :: rest =>
    let value := parseNat element
    cpuTimesLoop (cpuactive + if index ∈ active_indeces then value else 0)
      (cputotal + value) (index + 1) rest

/-- cpu_times: takes cputimes.split(" ") dropping the first two fragments and
runs the accumulation loop; returns the pair (cpuactive, cputotal). -/
def cpu_times (line : List Char) : Nat × Nat :=
  cpuTimesLoop 0 0 0 ((splitSp line).drop 2)

lemma digitChar_toNat {d : Nat} (hd : d < 10) : (Nat.digitChar d).toNat - 48 = d := by
  interval_cases d <;> decide

lemma digitChar_toNat_ge {d : Nat} (hd : d < 10) : 48 ≤ (Nat.digitChar d).toNat := by
  interval_cases d <;> decide

lemma foldl_digit_chars (ds : List Nat) (h : ∀ d ∈ ds, d < 10) (a : Nat) :
    ((ds.map Nat.digitChar).reverse).foldl (fun acc c => 10 * acc + (c.toNat - 48)) a =
      a * 10 ^ ds.length + Nat.ofDigits 10 ds := by
  induction ds generalizing a with
  | nil => simp
  | cons d ds ih =>
    have hd : d < 10 := h d (List.mem_cons_self d ds)
    have hds : ∀ x ∈ ds, x < 10 := fun x hx => h x (List.mem_cons_of_mem d hx)
    rw [List.map_cons, List.reverse_cons, List.foldl_append, ih hds a]
    simp only [List.foldl_cons, List.foldl_nil, digitChar_toNat hd]
    rw [Nat.ofDigits_cons, List.length_cons]
    ring

/-- Round trip: the rendering of a natural number parses back to itself. -/
lemma parseNat_natChars (x : Nat) : parseNat (natChars x) = x := by
  unfold natChars parseNat
  by_cases hx : x = 0
  · rw [if_pos hx, hx]
    decide
  · rw [if_neg hx,
      foldl_digit_chars (Nat.digits 10 x) (fun d hd => Nat.digits_lt_base (by norm_num) hd) 0]
    simp [Nat.ofDigits_digits]

/-- C3: the counter reader evaluated at the well formed first line with
user=1, nice=0, system=0, idle=5, iowait=0, irq=0, softirq=2, steal=0,
guest=3.  The user, nice, system, softirq, steal classification of the claim
gives active 3, but the code returns active 8: the double space after the
cpu label shifts enumerate by one, so the code counts nice, system, idle,
steal and guest as active, contradicting the active_indeces comment in the
source itself. -/
theorem cpu_times_counts_idle_as_active :
    cpu_times ("cpu  1 0 0 5 0 0 2 0 3".data) = (8, 11) ∧
    (8 : Nat) ≠ 1 + 0 + 0 + 2 + 0 := by
  constructor
  · decide
  · decide

/-- C3 general form: on the fragment list the loop actually receives (the
per-category values, beginning at user with enumerate index 0), the active
sum collects nice, system, idle, steal and guest, not the user, nice,
system, softirq, steal categories of the claim. -/
theorem cpuTimesLoop_active_selects (u n s i io irq so st g : Nat) :
    cpuTimesLoop 0 0 0
      [natChars u, natChars n, natChars s, natChars i, natChars io,
       natChars irq, natChars so, natChars st, natChars g] =
    (n + s + i + st + g, u + n + s + i + io + irq + so + st + g) := by
  simp only [cpuTimesLoop, parseNat_natChars, active_indeces]
  norm_num [List.mem_cons]

/-! ## CPU load (cpu_load, pithermon.py lines 314-327) -/

/-- The load computation of cpu_load: the source converts the tick deltas of
(active, total) snapshots to floats and divides, catching ZeroDivisionError
into load 0.0; that error occurs exactly when the total delta is zero. -/
def cpu_load_calc (prev curr : Int × Int) : ℚ :=
  if curr.2 - prev.2 = 0 then 0
  else 100 * (((curr.2 - prev.2 : Int) : ℚ) - ((curr.1 - prev.1 : Int) : ℚ)) /
    ((curr.2 - prev.2 : Int) : ℚ)

/-- One call of cpu_load together with its function-attribute state: prev is
the stored snapshot or, on the first call, a fresh cpu_times query; curr is
one further cpu_times query; afterwards the stored snapshot is curr.  The
collaborator is the list of successive cpu_times results; the call returns
none when that list is exhausted, otherwise the load, the new stored
snapshot, and the remaining collaborator results. -/
def cpu_load_call (state : Option (Int × Int)) (queries : List (Int × Int)) :
    Option (ℚ × (Int × Int) × List (Int × Int)) :=
  match state, queries with
  | none, q1 :: q2 :: rest => some (cpu_load_calc q1 q2, q2, rest)
  | some p, q :: rest => some (cpu_load_calc p q, q, rest)
  | _, _ => none

/-- C2: for all previous and current snapshots the sampler returns 100 times
the idle share of the total delta when the totals differ, returns 0 without a
division error when the totals are equal, and the worked examples give 0 and
60 percent. -/
theorem cpu_load_calc_spec :
    (∀ a0 t0 a1 t1 : Int, t1 ≠ t0 →
      cpu_load_calc (a0, t0) (a1, t1) =
        100 * (((t1 - t0 : Int) : ℚ) - ((a1 - a0 : Int) : ℚ)) / ((t1 - t0 : Int) : ℚ)) ∧
    (∀ a0 t0 a1 : Int, cpu_load_calc (a0, t0) (a1, t0) = 0) ∧
    cpu_load_calc (100, 200) (150, 250) = 0 ∧
    cpu_load_calc (100, 200) (120, 250) = 60 := by
  refine ⟨?_, ?_, ?_, ?_⟩
  · intro a0 t0 a1 t1 h
    simp only [cpu_load_calc]
    rw [if_neg (sub_ne_zero.mpr h)]
  · intro a0 t0 a1
    simp only [cpu_load_calc]
    rw [if_pos (sub_self t0)]
  · norm_num [cpu_load_calc]
  · norm_num [cpu_load_calc]

/-- Witness: the general load formula applied at previous snapshot (0, 0) and
current snapshot (0, 1). -/
theorem cpu_load_calc_spec_witness :
    (1 : Int) ≠ 0 ∧
    cpu_load_calc (0, 0) (0, 1) =
      100 * (((1 - 0 : Int) : ℚ) - ((0 - 0 : Int) : ℚ)) / ((1 - 0 : Int) : ℚ) :=
  ⟨by decide, cpu_load_calc_spec.1 0 0 0 1 (by decide)⟩

/-- C4 counterexample: on its first call, with a collaborator whose two
back-to-back queries return different totals, the sampler returns 100 rather
than 0, so the first call result is not independent of collaborator output. -/
theorem cpu_load_first_call_not_constant_zero :
    cpu_load_call none [(0, 0), (0, 10)] = some (100, (0, 10), []) ∧
    (100 : ℚ) ≠ 0 := by
  constructor
  · show some (cpu_load_calc (0, 0) (0, 10), (0, 10), []) = _
    norm_num [cpu_load_calc]
  · norm_num

/-- C4 amended: on the first call (no stored snapshot) the sampler consumes
exactly two collaborator queries and returns 0.0 whenever those two queries
report the same total, in particular whenever the collaborator output does
not change between the two back-to-back queries. -/
theorem cpu_load_first_call :
    (∀ q1 q2 : Int × Int, ∀ rest, q1.2 = q2.2 →
      cpu_load_call none (q1 :: q2 :: rest) = some (0, q2, rest)) ∧
    (∀ q1 q2 : Int × Int, ∀ rest,
      cpu_load_call none (q1 :: q2 :: rest) = some (cpu_load_calc q1 q2, q2, rest)) := by
  constructor
  · intro q1 q2 rest h
    show some (cpu_load_calc q1 q2, q2, rest) = _
    simp only [cpu_load_calc]
    rw [if_pos (by rw [h, sub_self])]
  · intro q1 q2 rest
    rfl

/-- Witness: the first call with a collaborator answering (0, 5) twice. -/
theorem cpu_load_first_call_witness :
    ((0, 5) : Int × Int).2 = ((3, 5) : Int × Int).2 ∧
    cpu_load_call none [(0, 5), (3, 5)] = some (0, (3, 5), []) :=
  ⟨rfl, cpu_load_first_call.1 (0, 5) (3, 5) [] rfl⟩

/-! ## Scheduler loop (pithermon.py lines 548-577) -/

/-- The initial target tick: start_time plus 500 ms, so that the first sleep
does not get a negative number. -/
def sched_first_tick (start_time : ℚ) : ℚ := start_time + 1 / 2

/-- sleep_duration as computed at the top of the loop body. -/
def sleep_duration (next_tick now : ℚ) : ℚ := next_tick - now

/-- One loop iteration: the body computes sleep_duration from the current
wall clock, sleeps that duration only when it is positive, measures, and
finally advances next_tick by the configured interval.  Returns the new
next_tick and the sleep performed, none when the sleep was skipped. -/
def sched_body (interval now next_tick : ℚ) : ℚ × Option ℚ :=
  (next_tick + interval,
    if sleep_duration next_tick now > 0 then some (sleep_duration next_tick now) else none)

/-- The sequence of next_tick values across iterations, driven by an
arbitrary wall clock sequence now. -/
def sched_tick (start_time interval : ℚ) (now : Nat → ℚ) : Nat → ℚ
  | 0 => sched_first_tick start_time
  | n + 1 => (sched_body interval (now n) (sched_tick start_time interval now n)).1

/-- C6: the scheduler starts at start plus half a second, each iteration
advances next_tick by exactly the interval, the whole next_tick sequence is
independent of the wall clock jitter, and a sleep happens exactly when the
computed duration next_tick minus now is positive, sleeping exactly that
duration and never a catch-up amount. -/
theorem scheduler_drift_free :
    (∀ (start interval : ℚ) (now : Nat → ℚ),
      sched_tick start interval now 0 = start + 1 / 2) ∧
    (∀ (start interval : ℚ) (now : Nat → ℚ) (n : Nat),
      sched_tick start interval now (n + 1) - sched_tick start interval now n = interval) ∧
    (∀ (start interval : ℚ) (now now2 : Nat → ℚ) (n : Nat),
      sched_tick start interval now n = sched_tick start interval now2 n) ∧
    (∀ interval now t : ℚ,
      (sched_body interval now t).2 =
        if t - now > 0 then some (t - now) else none) := by
  refine ⟨fun s i now => rfl, fun s i now n => ?_, ?_, fun i now t => rfl⟩
  · simp [sched_tick, sched_body]
  · intro s i now now2 n
    induction n with
    | zero => rfl
    | succ k ih => simp [sched_tick, sched_body, ih]

/-! ## Interrupt handling (pithermon.py lines 550-584) -/

/-- Observable effects of the loop body and of the KeyboardInterrupt
handler. -/
inductive Effect where
  | readSample
  | alertHook
  | csvWrite
  | consolePrint
  | closeLog
  | printNewline
  | exitSuccess
deriving DecidableEq

/-- Effects of one normal loop iteration: data.read, the alert hook, a csv
row exactly when a log file is configured, and the console status line. -/
def loop_iteration (log_open : Bool) : List Effect :=
  [.readSample, .alertHook] ++ (if log_open then [.csvWrite] else []) ++ [.consolePrint]

/-- Effects of the KeyboardInterrupt handler: csv_file.close() inside a
try/except pass, so a close happens exactly when a log sink is open and the
bare except swallows the lookup error otherwise; then a print of an empty
line, that is a final newline; then sys.exit() whose implicit None argument
is the success status. -/
def interrupt_handler (log_open : Bool) : List Effect :=
  (if log_open then [.closeLog] else []) ++ [.printNewline, .exitSuccess]

/-- A run interrupted after k complete iterations: the KeyboardInterrupt is
caught at the loop boundary and ends the run with the handler effects. -/
def interrupted_run (log_open : Bool) (k : Nat) : List Effect :=
  (List.replicate k (loop_iteration log_open)).flatten ++ interrupt_handler log_open

/-- C9: on the interrupt the handler closes the log sink exactly when one is
open, prints exactly one final newline, and its last effect is the successful
exit; and in a run interrupted after k iterations exactly k samples are read
and exactly k csv rows (0 without a log sink) are written, so no sample is
written after the interrupt is received. -/
theorem interrupt_graceful_shutdown :
    (∀ lo : Bool, (interrupt_handler lo).count Effect.closeLog = if lo then 1 else 0) ∧
    (∀ lo : Bool, (interrupt_handler lo).count Effect.printNewline = 1) ∧
    (∀ lo : Bool, (interrupt_handler lo).getLast? = some Effect.exitSuccess) ∧
    (∀ (lo : Bool) (k : Nat),
      (interrupted_run lo k).count Effect.readSample = k ∧
      (interrupted_run lo k).count Effect.csvWrite = if lo then k else 0) := by
  have hcount : ∀ (lo : Bool) (k : Nat),
      (interrupted_run lo k).count Effect.readSample = k ∧
      (interrupted_run lo k).count Effect.csvWrite = if lo then k else 0 := by
    intro lo k
    induction k with
    | zero => cases lo <;> simp [interrupted_run, interrupt_handler]
    | succ j ih =>
      have hstep : interrupted_run lo (j + 1) =
          loop_iteration lo ++ interrupted_run lo j := by
        simp [interrupted_run, List.replicate_succ, List.flatten]
      rw [hstep]
      cases lo <;>
        simp only [List.count_append, ih.1, ih.2, loop_iteration] <;>
        simp [List.count_cons, List.count_nil] <;> omega
  refine ⟨?_, ?_, ?_, hcount⟩ <;> intro lo <;> cases lo <;> decide

/-! ## Console alert (console_throttling_alert, pithermon.py lines 383-395) -/

/-- One invocation of console_throttling_alert.  Config.Console_Alert is the
optional minimum interval (None disables the alert before any state is
touched); the function-attribute last_beep is the optional stored time,
initialised to the current time on the first invocation that passes the None
check; all time.time() readings within one invocation are modelled as the
same instant now.  Returns the new stored time and whether the bell was
printed. -/
def console_throttling_alert (console_alert : Option ℚ) (throttled : Nat) (now : ℚ)
    (last_beep : Option ℚ) : Option ℚ × Bool :=
  match console_alert with
  | none => (last_beep, false)
  | some min_interval =>
    let lb := last_beep.getD now
    if throttled &&& 0x07 = 0 then (some lb, false)
    else if now - lb > min_interval then (some now, true)
    else (some lb, false)

/-- The alert hook folded over a run of ticks given as (time, throttle word)
pairs, propagating the stored last_beep state from invocation to
invocation. -/
def alertRun (console_alert : Option ℚ) (state : Option ℚ) : List (ℚ × Nat) → List Bool
  | [] => []
  | (now, w) :: rest =>
    let r := console_throttling_alert console_alert w now state
    r.2 :: alertRun console_alert r.1 rest

lemma alertRun_no_bell_aux (m t0 : ℚ) (rest : List (ℚ × Nat))
    (hle : ∀ p ∈ rest, p.1 ≤ t0 + m) :
    ∀ b ∈ alertRun (some m) (some t0) rest, b = false := by
  induction rest with
  | nil =>
    intro b hb
    simp [alertRun] at hb
  | cons p rest ih =>
    obtain ⟨now, w⟩ := p
    intro b hb
    have hnow : now ≤ t0 + m := hle (now, w) (List.mem_cons_self _ _)
    have hrest : ∀ q ∈ rest, q.1 ≤ t0 + m := fun q hq => hle q (List.mem_cons_of_mem _ hq)
    have hstep : console_throttling_alert (some m) w now (some t0) = (some t0, false) := by
      simp only [console_throttling_alert, Option.getD_some]
      by_cases hm : w &&& 0x07 = 0
      · rw [if_pos hm]
      · rw [if_neg hm, if_neg (by linarith : ¬now - t0 > m)]
    simp only [alertRun] at hb
    rw [hstep] at hb
    rcases List.mem_cons.mp hb with hb1 | hb2
    · exact hb1
    · exact ih hrest b hb2

/-- C10: the console alert hook emits a bell only when the minimum interval
is configured, the throttle word has one of the now bits 0, 1 or 2 set (a
word with only the soft limit bit or only ever bits never rings), and more
than the configured interval has elapsed since the stored last-bell time; and
since that time is initialised to the first invocation instant, no bell at
all occurs on a run whose ticks all lie within the first minimum interval
after the first tick, even with throttling active from the start. -/
theorem alert_bell_guard :
    (∀ (cfg : Option ℚ) (w : Nat) (now : ℚ) (lb : Option ℚ),
      (console_throttling_alert cfg w now lb).2 = true →
      ∃ m, cfg = some m ∧ w &&& 0x07 ≠ 0 ∧
        (w.testBit 0 = true ∨ w.testBit 1 = true ∨ w.testBit 2 = true) ∧
        now - lb.getD now > m) ∧
    (∀ (m t0 : ℚ) (w0 : Nat) (rest : List (ℚ × Nat)),
      (∀ p ∈ ((t0, w0) :: rest : List (ℚ × Nat)), p.1 ≤ t0 + m) →
      ∀ b ∈ alertRun (some m) none ((t0, w0) :: rest), b = false) := by
  constructor
  · intro cfg w now lb h
    match cfg with
    | none => simp [console_throttling_alert] at h
    | some m =>
      simp only [console_throttling_alert] at h
      by_cases hm : w &&& 0x07 = 0
      · rw [if_pos hm] at h
        simp at h
      · rw [if_neg hm] at h
        by_cases hg : now - lb.getD now > m
        · exact ⟨m, rfl, hm, (and_7_ne_zero w).mp hm, hg⟩
        · rw [if_neg hg] at h
          simp at h
  · intro m t0 w0 rest hle b hb
    have h0 : t0 ≤ t0 + m := hle (t0, w0) (List.mem_cons_self _ _)
    have hrest : ∀ q ∈ rest, q.1 ≤ t0 + m := fun q hq => hle q (List.mem_cons_of_mem _ hq)
    have hstep : console_throttling_alert (some m) w0 t0 none = (some t0, false) := by
      simp only [console_throttling_alert, Option.getD_none]
      by_cases hm : w0 &&& 0x07 = 0
      · rw [if_pos hm]
      · rw [if_neg hm, if_neg (by linarith : ¬t0 - t0 > m)]
    simp only [alertRun] at hb
    rw [hstep] at hb
    rcases List.mem_cons.mp hb with hb1 | hb2
    · exact hb1
    · exact alertRun_no_bell_aux m t0 rest hrest b hb2

/-- Witness: the bell guard applied at a ringing invocation (interval 1,
word 1, now 10, stored last bell 5) and the quiet-first-interval statement
applied to the one-tick run at time 0 with active throttling. -/
theorem alert_bell_guard_witness :
    (∃ m, (some (1 : ℚ)) = some m ∧ (1 : Nat) &&& 0x07 ≠ 0 ∧
      ((1 : Nat).testBit 0 = true ∨ (1 : Nat).testBit 1 = true ∨
        (1 : Nat).testBit 2 = true) ∧
      (10 : ℚ) - (some (5 : ℚ)).getD 10 > m) ∧
    (∀ b ∈ alertRun (some (1 : ℚ)) none [((0 : ℚ), 7)], b = false) := by
  constructor
  · apply alert_bell_guard.1 (some 1) 1 10 (some 5)
    simp only [console_throttling_alert, Option.getD_some]
    rw [if_neg (by decide), if_pos (by norm_num)]
  · apply alert_bell_guard.2 1 0 7 []
    intro p hp
    simp at hp
    rw [hp]
    norm_num

end Pithermon
